import Mathlib

/-!
Verification development for the two documentation utilities of this repository:

* `documentation/parse_adoc.py` — scans `.adoc` files, computes per-file line
  metrics (`analyze_file`), filters out unreadable files (`process_files`) and
  upserts the results into a SQLite database (`write_to_db`).
* `documentation/stats.py` — counts AsciiDoc constructs in the source text
  (`parse_asciidoc`), counts the corresponding structural constructs in the
  rendered HTML (`parse_html`) and emits a side-by-side CSV (`output_csv`).

The embedding models Python strings as `List Char` (ASCII fragment: the
character-class tests `str.isalnum`, `\w`, `\s` are modelled by their ASCII
behaviour, which agrees with Python on all inputs used below).  Each regular
expression of `stats.py` is translated into an executable predicate on
`List Char`; `re.search` is the existence of a match position (`searchPos`),
`re.match` is a match anchored at the start of the string.
-/

namespace Docs

/-- Python strings are modelled as lists of characters. -/
abbrev Str := List Char

/-- Python's whitespace class (`str.strip`, regex `\s`), ASCII fragment. -/
def isPySpace (c : Char) : Bool :=
  c == ' ' || c == '\t' || c == '\n' || c == '\r' || c == '\x0b' || c == '\x0c'

/-- Python's `str.isalnum` for a single character, ASCII fragment. -/
def pyIsAlnum (c : Char) : Bool := c.isAlphanum

/-- Python's regex `\w` character class, ASCII fragment. -/
def isWordChar (c : Char) : Bool := c.isAlphanum || c == '_'

/-- Python's `str.lstrip()` (strip leading whitespace). -/
def pyLstrip (s : Str) : Str := s.dropWhile isPySpace

/-- Python's `str.strip()` (strip leading and trailing whitespace). -/
def pyStrip (s : Str) : Str :=
  ((s.dropWhile isPySpace).reverse.dropWhile isPySpace).reverse

/-!
## `parse_adoc.py`: `analyze_file`

The per-line classifier of `analyze_file` (lines 110–136 of the source):
for each raw line, `total` is incremented; the line is left-stripped; an empty
result is skipped; a line starting with `//` counts as a comment; a line
starting with `:` is parsed as an `attribute:value` definition and the pair is
added to the `definitions` *set* when the attribute is non-empty; otherwise the
first character decides between the `alnum` and `special` buckets.
-/

/-- The running counters of `analyze_file`: `total`, `alnum`, `special`,
`comments`, and the `definitions` set (modelled as a duplicate-free list in
insertion order). -/
structure AnalyzeState where
  total : Nat
  alnum : Nat
  special : Nat
  comments : Nat
  definitions : List (Str × Str)
deriving DecidableEq, Repr

/-- Python's `str.split(':', 1)`: the part before the first `:`, and the part
after it when a `:` is present. -/
def splitOnceColon : Str → Str × Option Str
  | [] => ([], none)
  | c :: cs =>
    if c == ':' then ([], some cs)
    else
      let p := splitOnceColon cs
      (c :: p.1, p.2)

/-- Parsing of the text after the leading `:` of a definition line
(`analyze_file` lines 125–130): `rest = line[1:].strip()`,
`parts = rest.split(':', 1)`, `attribute = parts[0].strip()`,
`value = parts[1].strip() if len(parts) > 1 else ''`; the pair is kept only
when `attribute` is non-empty. -/
def parseDefPair (cs : Str) : Option (Str × Str) :=
  let rest := pyStrip cs
  let parts := splitOnceColon rest
  let attr := pyStrip parts.1
  let value := match parts.2 with
    | some v => pyStrip v
    | none => []
  if attr.isEmpty then none else some (attr, value)

/-- `definitions.add(d)`: a Python set insertion, modelled on the
duplicate-free list. -/
def insertDef (defs : List (Str × Str)) (d : Str × Str) : List (Str × Str) :=
  if defs.contains d then defs else defs ++ [d]

/-- One iteration of the `for raw in f` loop of `analyze_file`: `total` is
always incremented; a line that is blank after left-stripping touches nothing
else; `//` starts a comment; `:` starts a definition line whose parsed pair
(if any) is added to the set; otherwise the first character decides between
`alnum` and `special`. -/
def analyzeLine (st : AnalyzeState) (raw : Str) : AnalyzeState :=
  match pyLstrip raw with
  | [] => ⟨st.total + 1, st.alnum, st.special, st.comments, st.definitions⟩
  | c :: cs =>
    if c == '/' && cs.head? == some '/' then
      ⟨st.total + 1, st.alnum, st.special, st.comments + 1, st.definitions⟩
    else if c == ':' then
      match parseDefPair cs with
      | some d =>
        ⟨st.total + 1, st.alnum, st.special, st.comments, insertDef st.definitions d⟩
      | none => ⟨st.total + 1, st.alnum, st.special, st.comments, st.definitions⟩
    else if pyIsAlnum c then
      ⟨st.total + 1, st.alnum + 1, st.special, st.comments, st.definitions⟩
    else
      ⟨st.total + 1, st.alnum, st.special + 1, st.comments, st.definitions⟩

/-- The whole read loop of `analyze_file` over the file's physical lines. -/
def analyze_lines (lines : List Str) : AnalyzeState :=
  lines.foldl analyzeLine ⟨0, 0, 0, 0, []⟩

/-- The five mutually exclusive per-line categories induced by the branch
structure of `analyze_file`. -/
inductive LineCat where
  | blank
  | comment
  | defn
  | alnum
  | special
deriving DecidableEq, Repr

/-- The branch of `analyze_file` taken by a raw line. -/
def lineCat (raw : Str) : LineCat :=
  match pyLstrip raw with
  | [] => .blank
  | c :: cs =>
    if c == '/' && cs.head? == some '/' then .comment
    else if c == ':' then .defn
    else if pyIsAlnum c then .alnum
    else .special

/-- Number of lines of a file falling in a given category. -/
def catCount (cat : LineCat) (lines : List Str) : Nat :=
  lines.countP (fun raw => lineCat raw == cat)

/-- The effect of a definition line on the `definitions` set (the `:` branch
of `analyze_file`); other lines leave the set unchanged. -/
def defnUpdate (defs : List (Str × Str)) (raw : Str) : List (Str × Str) :=
  match pyLstrip raw with
  | c :: cs =>
    if c == ':' then
      match parseDefPair cs with
      | some d => insertDef defs d
      | none => defs
    else defs
  | [] => defs

/-!
## `parse_adoc.py`: records, failures, `process_files`
-/

/-- File metadata obtained from `os.stat` and path handling (the relative
path computation of lines 141–148 is treated as given metadata: the claims
under verification do not depend on it). -/
structure FileMeta where
  path : Str
  filename : Str
  created : Str
  modified : Str
  size : Nat
deriving DecidableEq, Repr

/-- The dict returned by `analyze_file` on success. -/
structure Record where
  path : Str
  filename : Str
  created : Str
  modified : Str
  size : Nat
  total_lines : Nat
  alnum_start : Nat
  special_start : Nat
  comment_lines : Nat
  definition_count : Nat
  definitions_list : List (Str × Str)
deriving DecidableEq, Repr

/-- Assembling the result dict of `analyze_file` (lines 150–162). -/
def recordOf (m : FileMeta) (st : AnalyzeState) : Record :=
  ⟨m.path, m.filename, m.created, m.modified, m.size,
   st.total, st.alnum, st.special, st.comments,
   st.definitions.length, st.definitions⟩

/-- How a file presents itself to `analyze_file`: `os.stat` may raise, the
read loop may raise, or the file is readable with its list of lines. -/
inductive FileInput where
  | statError (path : Str)
  | readError (meta : FileMeta)
  | ok (meta : FileMeta) (lines : List Str)

/-- `analyze_file`: both failure branches log and return `None`
(lines 100–104 and 137–139); a readable file yields the full record. -/
def analyze_file : FileInput → Option Record
  | .statError _ => none
  | .readError _ => none
  | .ok m lines => some (recordOf m (analyze_lines lines))

/-- `process_files` (lines 168–172): `executor.map` preserves input order and
only truthy results are yielded. -/
def process_files (inputs : List FileInput) : List Record :=
  inputs.filterMap analyze_file

-- concrete evaluations of the embedding
example : analyze_lines [":foo: bar".toList] =
    ⟨1, 0, 0, 0, [("foo".toList, "bar".toList)]⟩ := by decide
example : analyze_lines [":".toList] = ⟨1, 0, 0, 0, []⟩ := by decide
example : analyze_lines ["// c".toList, "".toList, "x".toList, "*".toList] =
    ⟨4, 1, 1, 1, []⟩ := by decide

/-!
## `parse_adoc.py`: `write_to_db`

The database of the `SCHEMA` (lines 49–82): `files` is keyed by `path`
(`INSERT OR REPLACE`, which in SQLite deletes the conflicting row and inserts
the new one), the other four tables are keyed by their full row
(`INSERT OR IGNORE`).  Tables are modelled as lists of rows; row order is an
artifact of the model (SQLite tables are row sets).
-/

/-- One row of the `files` table. -/
structure FileRow where
  path : Str
  filename : Str
  created : Str
  modified : Str
  size : Nat
  total_lines : Nat
  alnum_start : Nat
  special_start : Nat
  comment_lines : Nat
  definition_count : Nat
deriving DecidableEq, Repr

/-- The tuple bound by the `insert_file` statement (lines 195–199). -/
def Record.toRow (r : Record) : FileRow :=
  ⟨r.path, r.filename, r.created, r.modified, r.size, r.total_lines,
   r.alnum_start, r.special_start, r.comment_lines, r.definition_count⟩

/-- The five tables created by `SCHEMA`. -/
structure DB where
  files : List FileRow
  attributes : List Str
  values_tbl : List Str
  file_attributes : List (Str × Str)
  attribute_values : List (Str × Str)
deriving DecidableEq, Repr

/-- `INSERT OR REPLACE INTO files`: delete any row with the same `path` key,
then insert the new row. -/
def upsertFile (tbl : List FileRow) (row : FileRow) : List FileRow :=
  tbl.filter (fun q => !(q.path == row.path)) ++ [row]

/-- `INSERT OR IGNORE` into a table whose primary key is the whole row. -/
def insertIgnore {α : Type} [BEq α] (tbl : List α) (x : α) : List α :=
  if tbl.contains x then tbl else tbl ++ [x]

/-- One iteration of the `for attr, val in r['definitions_list']` loop
(lines 201–205): four `INSERT OR IGNORE` statements. -/
def defInsert (p : Str) (d : DB) (av : Str × Str) : DB :=
  ⟨d.files, insertIgnore d.attributes av.1, insertIgnore d.values_tbl av.2,
   insertIgnore d.file_attributes (p, av.1), insertIgnore d.attribute_values av⟩

/-- One iteration of the `for r in records` loop of `write_to_db`
(lines 193–205): the `files` upsert, then the definition inserts. -/
def writeRecord (db : DB) (r : Record) : DB :=
  r.definitions_list.foldl (defInsert r.path)
    ⟨upsertFile db.files r.toRow, db.attributes, db.values_tbl,
     db.file_attributes, db.attribute_values⟩

/-- `write_to_db` (lines 178–209), applied to an already-open database. -/
def write_to_db (db : DB) (records : List Record) : DB :=
  records.foldl writeRecord db

/-- Concatenation of per-record streams, used to flatten the nested insert
loops of `write_to_db` table by table. -/
def streamConcat {α : Type} (f : Record → List α) : List Record → List α
  | [] => []
  | r :: rs => f r ++ streamConcat f rs

/-!
## `stats.py`: the AsciiDoc construct table

Each entry of `ASCIIDOC_CONSTRUCTS` (lines 12–44 of `stats.py`) is translated
into an executable predicate deciding `re.search(pattern, line) is not None`.
`searchPos p s` is true when `p` holds at some start position of `s`, i.e. on
some suffix of `s` — exactly the match positions tried by `re.search`.
-/

/-- `re.search`: the pattern matches at some position of the string. -/
def searchPos (p : Str → Bool) : Str → Bool
  | [] => p []
  | c :: cs => p (c :: cs) || searchPos p cs

/-- Pattern `^(={1,6})\s+`: one to six leading `=` followed by whitespace. -/
def matchHeadings (s : Str) : Bool :=
  let eqs := (s.takeWhile (fun c => c == '=')).length
  decide (1 ≤ eqs) && decide (eqs ≤ 6) &&
    (match (s.drop eqs).head? with
     | some c => isPySpace c
     | none => false)

/-- Pattern `^(?:\*|-|\+)\s+`. -/
def matchBulleted (s : Str) : Bool :=
  match s with
  | c :: d :: _ => (c == '*' || c == '-' || c == '+') && isPySpace d
  | _ => false

/-- Pattern `^\d+\.\s+`. -/
def matchOrdered (s : Str) : Bool :=
  let ds := (s.takeWhile Char.isDigit).length
  decide (1 ≤ ds) &&
    (match s.drop ds with
     | c :: d :: _ => c == '.' && isPySpace d
     | _ => false)

/-- Pattern `^_{3,}` (used by both `blockquote` and `inline_quote`). -/
def matchUnderscores3 (s : Str) : Bool :=
  decide (3 ≤ (s.takeWhile (fun c => c == '_')).length)

/-- Pattern `^(?:\+\+\+|----)$`. -/
def matchLiteralBlock (s : Str) : Bool :=
  s == "+++".toList || s == "----".toList

/-- Pattern `` ^``` `` (three backticks at the start). -/
def matchFenced (s : Str) : Bool :=
  "\x60\x60\x60".toList.isPrefixOf s

/-- Pattern `^/{4,} `: four or more leading slashes followed by a space. -/
def matchCommentBlock (s : Str) : Bool :=
  let js := (s.takeWhile (fun c => c == '/')).length
  decide (4 ≤ js) && ((s.drop js).head? == some ' ')

/-- Pattern `^\|===|^\.\|`. -/
def matchTableLine (s : Str) : Bool :=
  "|===".toList.isPrefixOf s || ".|".toList.isPrefixOf s

/-- One alternative of the admonition pattern: the keyword with its colon,
followed by whitespace. -/
def admonitionWord (w : String) (s : Str) : Bool :=
  w.toList.isPrefixOf s &&
    (match (s.drop w.toList.length).head? with
     | some c => isPySpace c
     | none => false)

/-- Pattern `^(?:NOTE|TIP|IMPORTANT|CAUTION|WARNING):\s+`. -/
def matchAdmonition (s : Str) : Bool :=
  admonitionWord "NOTE:" s || admonitionWord "TIP:" s ||
  admonitionWord "IMPORTANT:" s || admonitionWord "CAUTION:" s ||
  admonitionWord "WARNING:" s

/-- Pattern `^====$`. -/
def matchExampleBlock (s : Str) : Bool := s == "====".toList

/-- Pattern `^\*{4}$`. -/
def matchSidebarBlock (s : Str) : Bool := s == "****".toList

/-- Pattern `^----$`. -/
def matchListingBlock (s : Str) : Bool := s == "----".toList

/-- Pattern `^\[verse\]`. -/
def matchVerseBlock (s : Str) : Bool := "[verse]".toList.isPrefixOf s

/-- A span pattern `open … close` such as `\*\*(.*?)\*\*`: an occurrence of
the opening marker, and an occurrence of the closing marker starting at least
`gap` characters later (`gap` = length of the opener plus the minimum width of
the lazy middle group). -/
def spanSearch (opener : String) (gap : Nat) (closer : String) (s : Str) : Bool :=
  searchPos (fun t =>
    opener.toList.isPrefixOf t &&
      searchPos (fun u => closer.toList.isPrefixOf u) (t.drop gap)) s

/-- Pattern `\*\*(.*?)\*\*`. -/
def matchInlineBold (s : Str) : Bool := spanSearch "**" 2 "**" s

/-- Pattern `__(.*?)__`. -/
def matchInlineItalic (s : Str) : Bool := spanSearch "__" 2 "__" s

/-- Pattern `` `(.+?)` `` (used by both `inline_monospace` and
`inline_code`). -/
def matchBacktickSpan (s : Str) : Bool := spanSearch "\x60" 2 "\x60" s

/-- Pattern `~(.+?)~`. -/
def matchInlineSubscript (s : Str) : Bool := spanSearch "~" 2 "~" s

/-- Pattern `\^(.+?)\^`. -/
def matchInlineSuperscript (s : Str) : Bool := spanSearch "^" 2 "^" s

/-- Pattern `\+\+(.*?)\+\+`. -/
def matchInlineUnderline (s : Str) : Bool := spanSearch "++" 2 "++" s

/-- Pattern `https?://[^\s]+`. -/
def matchInlineLink (s : Str) : Bool :=
  searchPos (fun t =>
    ("http://".toList.isPrefixOf t &&
      (match (t.drop 7).head? with
       | some c => !isPySpace c
       | none => false)) ||
    ("https://".toList.isPrefixOf t &&
      (match (t.drop 8).head? with
       | some c => !isPySpace c
       | none => false))) s

/-- After `image::`: at least one character other than `[`, then the first
`[`, then a later `]` (the `[^\[]+\[.*\]` part of the image pattern). -/
def imageTail (r : Str) : Bool :=
  match r with
  | [] => false
  | d :: _ =>
    !(d == '[') &&
      (match r.dropWhile (fun c => !(c == '[')) with
       | _ :: rest => rest.contains ']'
       | [] => false)

/-- Pattern `image::[^\[]+\[.*\]`. -/
def matchInlineImage (s : Str) : Bool :=
  searchPos (fun t => "image::".toList.isPrefixOf t && imageTail (t.drop 7)) s

/-- Pattern `\x7b[a-zA-Z0-9_]+\x7d`: an attribute reference in curly
braces. -/
def matchCurlyRef (s : Str) : Bool :=
  searchPos (fun t =>
    match t with
    | c :: rest =>
      c == '\x7b' &&
        (let run := rest.takeWhile isWordChar
         decide (1 ≤ run.length) && ((rest.drop run.length).head? == some '\x7d'))
    | [] => false) s

/-- Pattern `^\:.*\:`. -/
def matchInlineAttributes (s : Str) : Bool :=
  match s with
  | c :: rest => c == ':' && rest.contains ':'
  | [] => false

/-- Pattern `^\* \[.\] `. -/
def matchChecklist (s : Str) : Bool :=
  match s with
  | a :: b :: c :: _ :: e :: f :: _ =>
    a == '*' && b == ' ' && c == '[' && e == ']' && f == ' '
  | _ => false

/-- Pattern `^\S.*::$`. -/
def matchDescriptionList (s : Str) : Bool :=
  decide (3 ≤ s.length) &&
    (match s.head? with
     | some c => !isPySpace c
     | none => false) &&
    "::".toList.isSuffixOf s

/-- Pattern `^\s*:(\w+):\s*`. -/
def matchAttributeDefinitions (s : Str) : Bool :=
  match s.dropWhile isPySpace with
  | c :: rest =>
    c == ':' &&
      (let run := rest.takeWhile isWordChar
       decide (1 ≤ run.length) && ((rest.drop run.length).head? == some ':'))
  | [] => false

/-- Pattern `<<.+?>>`. -/
def matchCrossReference (s : Str) : Bool := spanSearch "<<" 3 ">>" s

/-- Pattern `\[\[(.*?)\]\]`. -/
def matchAnchor (s : Str) : Bool := spanSearch "[[" 2 "]]" s

/-- Pattern `^\+\+$`. -/
def matchLiteralParagraph (s : Str) : Bool := s == "++".toList

/-- The `ASCIIDOC_CONSTRUCTS` dict (lines 12–44), in source order, with each
regex replaced by its predicate. -/
def ASCIIDOC_CONSTRUCTS : List (String × (Str → Bool)) :=
  [("headings", matchHeadings),
   ("bulleted_list", matchBulleted),
   ("ordered_list", matchOrdered),
   ("blockquote", matchUnderscores3),
   ("literal_block", matchLiteralBlock),
   ("fenced_block", matchFenced),
   ("comment_block", matchCommentBlock),
   ("table", matchTableLine),
   ("admonition", matchAdmonition),
   ("example_block", matchExampleBlock),
   ("sidebar_block", matchSidebarBlock),
   ("listing_block", matchListingBlock),
   ("verse_block", matchVerseBlock),
   ("inline_bold", matchInlineBold),
   ("inline_italic", matchInlineItalic),
   ("inline_monospace", matchBacktickSpan),
   ("inline_code", matchBacktickSpan),
   ("inline_subscript", matchInlineSubscript),
   ("inline_superscript", matchInlineSuperscript),
   ("inline_underline", matchInlineUnderline),
   ("inline_link", matchInlineLink),
   ("inline_image", matchInlineImage),
   ("inline_macro", matchCurlyRef),
   ("inline_attributes", matchInlineAttributes),
   ("checklist", matchChecklist),
   ("description_list", matchDescriptionList),
   ("attribute_definitions", matchAttributeDefinitions),
   ("cross_reference", matchCrossReference),
   ("anchor", matchAnchor),
   ("inline_quote", matchUnderscores3),
   ("literal_paragraph", matchLiteralParagraph)]

/-!
## `stats.py`: tallies

A `defaultdict(int)` is modelled as an association list in key insertion
order; `bump` is `stats[c] += 1`, `tallyGet` is `stats.get(c, 0)`.
-/

/-- `stats[c] += 1` on a `defaultdict(int)`. -/
def bump (stats : List (String × Nat)) (c : String) : List (String × Nat) :=
  match stats with
  | [] => [(c, 1)]
  | (k, v) :: rest => if k == c then (k, v + 1) :: rest else (k, v) :: bump rest c

/-- `stats.get(c, 0)`. -/
def tallyGet (stats : List (String × Nat)) (c : String) : Nat :=
  match stats with
  | [] => 0
  | (k, v) :: rest => if k == c then v else tallyGet rest c

/-- The inner `for construct, pattern in ASCIIDOC_CONSTRUCTS.items()` loop of
`parse_asciidoc` (lines 90–93): every pattern is tested against the line, with
no early exit; `log_construct` only writes to stderr and carries no state. -/
def lineStep (st : List (String × Nat)) (l : Str) : List (String × Nat) :=
  ASCIIDOC_CONSTRUCTS.foldl (fun s p => if p.2 l then bump s p.1 else s) st

/-- `parse_asciidoc` (lines 85–95), taking the result of
`content.splitlines()` as input. -/
def parse_asciidoc (lines : List Str) : List (String × Nat) :=
  lines.foldl lineStep []

-- concrete evaluations of the embedding
example : parse_asciidoc ["== Title".toList] = [("headings", 1)] := by decide
example : parse_asciidoc ["== **b** t".toList] =
    [("headings", 1), ("inline_bold", 1)] := by decide
example : matchInlineBold "***".toList = false := by decide
example : matchInlineBold "****".toList = true := by decide
example : matchBacktickSpan "\x60\x60".toList = false := by decide
example : matchBacktickSpan "a \x60b\x60".toList = true := by decide

/-!
## `stats.py`: the HTML side

`HTML_CONSTRUCTS` (lines 47–79) maps each construct name to a regex *string*;
the strings are kept verbatim because `output_csv` prints them.  Their match
semantics (`re.match(pattern, tag.name)`, i.e. anchored at the start of the
tag name) is given by `reMatchHtml`, one case per distinct pattern string.
-/

/-- The `HTML_CONSTRUCTS` dict, with its literal regex strings, in source
order. -/
def HTML_CONSTRUCTS : List (String × String) :=
  [("headings", "^h[1-6]$"),
   ("bulleted_list", "^ul$"),
   ("ordered_list", "^ol$"),
   ("blockquote", "^blockquote$"),
   ("literal_block", "^pre$"),
   ("fenced_block", "^code$"),
   ("comment_block", "<!--"),
   ("table", "^table$"),
   ("admonition", "^div.admonitionblock"),
   ("example_block", "^div.exampleblock"),
   ("sidebar_block", "^div.sidebarblock"),
   ("listing_block", "^pre$"),
   ("verse_block", "^div.verseblock"),
   ("inline_bold", "^strong$"),
   ("inline_italic", "^em$"),
   ("inline_monospace", "^code$"),
   ("inline_code", "^code$"),
   ("inline_subscript", "sub"),
   ("inline_superscript", "sup"),
   ("inline_underline", "u"),
   ("inline_link", "a"),
   ("inline_image", "img"),
   ("inline_macro", "span"),
   ("inline_attributes", "^span$"),
   ("checklist", "^ul.checklist$"),
   ("description_list", "^dl$"),
   ("attribute_definitions", "meta"),
   ("cross_reference", "a.xref"),
   ("anchor", "a.anchor"),
   ("inline_quote", "q"),
   ("literal_paragraph", "p.literalblock")]

/-- A pattern of the shape `pre.post` without `$`, matched by `re.match`:
`pre`, then any single character, then `post`, as a prefix of the name. -/
def dotPrefixMatch (pre post : String) (name : Str) : Bool :=
  pre.toList.isPrefixOf name &&
    (match name.drop pre.toList.length with
     | _ :: rest => post.toList.isPrefixOf rest
     | [] => false)

/-- A pattern of the shape `^pre.post$`: `pre`, any single character, then
`post`, consuming the whole name. -/
def dotExactMatch (pre post : String) (name : Str) : Bool :=
  pre.toList.isPrefixOf name &&
    (match name.drop pre.toList.length with
     | _ :: rest => rest == post.toList
     | [] => false)

/-- `re.match(pat, name)` for the 28 distinct pattern strings occurring in
`HTML_CONSTRUCTS`: `^x$` patterns match the name exactly, unanchored patterns
match any name that *starts* with them (this is what makes the bare-`a` match
of `inline_link` possible), and `pre.post` patterns include a wildcard
character. -/
def reMatchHtml (pat : String) (name : Str) : Bool :=
  if pat == "^h[1-6]$" then
    match name with
    | [c, d] => c == 'h' && decide ('1' ≤ d) && decide (d ≤ '6')
    | _ => false
  else if pat == "^ul$" then name == "ul".toList
  else if pat == "^ol$" then name == "ol".toList
  else if pat == "^blockquote$" then name == "blockquote".toList
  else if pat == "^pre$" then name == "pre".toList
  else if pat == "^code$" then name == "code".toList
  else if pat == "<!--" then "<!--".toList.isPrefixOf name
  else if pat == "^table$" then name == "table".toList
  else if pat == "^div.admonitionblock" then dotPrefixMatch "div" "admonitionblock" name
  else if pat == "^div.exampleblock" then dotPrefixMatch "div" "exampleblock" name
  else if pat == "^div.sidebarblock" then dotPrefixMatch "div" "sidebarblock" name
  else if pat == "^div.verseblock" then dotPrefixMatch "div" "verseblock" name
  else if pat == "^strong$" then name == "strong".toList
  else if pat == "^em$" then name == "em".toList
  else if pat == "sub" then "sub".toList.isPrefixOf name
  else if pat == "sup" then "sup".toList.isPrefixOf name
  else if pat == "u" then "u".toList.isPrefixOf name
  else if pat == "a" then "a".toList.isPrefixOf name
  else if pat == "img" then "img".toList.isPrefixOf name
  else if pat == "span" then "span".toList.isPrefixOf name
  else if pat == "^span$" then name == "span".toList
  else if pat == "^ul.checklist$" then dotExactMatch "ul" "checklist" name
  else if pat == "^dl$" then name == "dl".toList
  else if pat == "meta" then "meta".toList.isPrefixOf name
  else if pat == "a.xref" then dotPrefixMatch "a" "xref" name
  else if pat == "a.anchor" then dotPrefixMatch "a" "anchor" name
  else if pat == "q" then "q".toList.isPrefixOf name
  else if pat == "p.literalblock" then dotPrefixMatch "p" "literalblock" name
  else false

/-- A node of the parsed HTML tree as `parse_html` sees it: the tag name,
the `class` attribute as BeautifulSoup's list of class names (`[]` when the
attribute is absent, which is also when `tag.get('class')` is falsy), and the
`href` attribute (`none` when absent). -/
structure HtmlTag where
  name : Str
  classes : List String
  href : Option String
deriving DecidableEq, Repr

/-- Truthiness of `tag.get('class')`. -/
def classTruthy (t : HtmlTag) : Bool := !t.classes.isEmpty

/-- Truthiness of `tag.get('href')`: present and non-empty. -/
def hrefTruthy : Option String → Bool
  | none => false
  | some s => !(s == "")

/-- The `if re.match … elif … elif …` chain of `parse_html` (lines 126–139)
for one (construct, pattern, tag) triple.  Exactly one branch of the chain can
fire (each `elif` is guarded by a distinct construct name), so the chain is a
disjunction. -/
def classifyTag (c : String) (pat : String) (t : HtmlTag) : Bool :=
  reMatchHtml pat t.name ||
  (c == "admonition" && classTruthy t && t.classes.contains "admonitionblock") ||
  (c == "checklist" && classTruthy t && t.classes.contains "checklist") ||
  (c == "inline_link" && t.name == "a".toList && hrefTruthy t.href) ||
  (c == "cross_reference" && classTruthy t && t.classes.contains "xref") ||
  (c == "anchor" && classTruthy t && t.classes.contains "anchor") ||
  (c == "literal_paragraph" && classTruthy t && t.classes.contains "literalblock")

/-- The inner `for construct, pattern in HTML_CONSTRUCTS.items()` loop of
`parse_html` for one tag. -/
def tagStep (st : List (String × Nat)) (t : HtmlTag) : List (String × Nat) :=
  HTML_CONSTRUCTS.foldl (fun s p => if classifyTag p.1 p.2 t then bump s p.1 else s) st

/-- `parse_html` (lines 119–141), taking the list of tags produced by
`soup.find_all(True)` in document order. -/
def parse_html (tags : List HtmlTag) : List (String × Nat) :=
  tags.foldl tagStep []

-- concrete evaluations of the embedding
example : parse_html [⟨"a".toList, [], none⟩] = [("inline_link", 1)] := by decide
example : parse_html [⟨"ul".toList, [], none⟩] =
    [("bulleted_list", 1), ("inline_underline", 1)] := by decide
example : parse_html [⟨"div".toList, ["admonitionblock"], none⟩] =
    [("admonition", 1)] := by decide

/-!
## `stats.py`: `output_csv`

The comparator (lines 143–157): one CSV data row per construct in
`set(asciidoc_stats.keys()).union(html_stats.keys())`.  A Python set has no
specified iteration order; the model fixes a canonical order (keys of the
first tally, then new keys of the second).
-/

/-- One data row of the CSV output. -/
structure CsvRow where
  adoc_construct : String
  html_construct : String
  adoc_count : Nat
  html_count : Nat
deriving DecidableEq, Repr

/-- `HTML_CONSTRUCTS.get(construct, "N/A")`. -/
def dictGetD (tbl : List (String × String)) (c : String) (dflt : String) : String :=
  match tbl.find? (fun p => p.1 == c) with
  | some p => p.2
  | none => dflt

/-- `set(a.keys()).union(h.keys())`, in the model's canonical order. -/
def unionKeys (a h : List (String × Nat)) : List String :=
  a.map Prod.fst ++ (h.map Prod.fst).filter (fun k => !((a.map Prod.fst).contains k))

/-- `output_csv` (lines 143–157), returning the data rows (the header is
fixed text). -/
def output_csv (a h : List (String × Nat)) : List CsvRow :=
  (unionKeys a h).map (fun c =>
    ⟨c, dictGetD HTML_CONSTRUCTS c "N/A", tallyGet a c, tallyGet h c⟩)

-- concrete evaluation of the embedding
example : output_csv [("x", 1)] [("y", 2)] =
    [⟨"x", "N/A", 1, 0⟩, ⟨"y", "N/A", 0, 2⟩] := by decide

/-!
## Lemmas about tallies

`bump`/`tallyGet` arithmetic, and the characterization of one pass of a
construct table over one item: the count for `c` grows by the number of table
entries named `c` whose test fires — which, on a duplicate-free table, is `1`
or `0` according to the unique entry named `c`.
-/

lemma bump_cons (a : String) (v : Nat) (st : List (String × Nat)) (k : String) :
    bump ((a, v) :: st) k = if a == k then (a, v + 1) :: st else (a, v) :: bump st k := rfl

lemma tallyGet_cons (a : String) (v : Nat) (st : List (String × Nat)) (c : String) :
    tallyGet ((a, v) :: st) c = if a == c then v else tallyGet st c := rfl

lemma tallyGet_nil (c : String) : tallyGet [] c = 0 := rfl

lemma tallyGet_bump (st : List (String × Nat)) (k c : String) :
    tallyGet (bump st k) c = tallyGet st c + (if k == c then 1 else 0) := by
  induction st with
  | nil =>
    show tallyGet [(k, 1)] c = 0 + if k == c then 1 else 0
    rw [tallyGet_cons]
    by_cases h : k = c <;> simp [h, tallyGet_nil]
  | cons p st ih =>
    obtain ⟨a, v⟩ := p
    rw [bump_cons]
    by_cases hak : a = k
    · subst hak
      rw [if_pos (by simp), tallyGet_cons, tallyGet_cons]
      by_cases hac : a = c <;> simp [hac]
    · rw [if_neg (by simpa using hak), tallyGet_cons, tallyGet_cons, ih]
      by_cases hac : a = c
      · have hkc : ¬ k = c := fun h => hak (hac.trans h.symm)
        simp [hac, hkc]
      · simp [hac]

lemma countP_byName {β : Type} (c : String) (g : String × β → Bool) :
    ∀ tbl : List (String × β), (tbl.map Prod.fst).Nodup →
      tbl.countP (fun p => p.1 == c && g p) =
        (match tbl.find? (fun p => p.1 == c) with
         | some p => if g p then 1 else 0
         | none => 0) := by
  intro tbl
  induction tbl with
  | nil => intro _; simp
  | cons p tbl ih =>
    intro hnd
    rw [List.map_cons, List.nodup_cons] at hnd
    by_cases hc : p.1 = c
    · rw [List.find?_cons_of_pos _ (by simpa using hc), List.countP_cons]
      have hz : tbl.countP (fun q => q.1 == c && g q) = 0 := by
        refine List.countP_eq_zero.mpr ?_
        intro q hq
        have hq1 : q.1 ∈ tbl.map Prod.fst := List.mem_map_of_mem Prod.fst hq
        have hne : ¬ q.1 = c := by
          intro h
          refine hnd.1 ?_
          have hpq : p.1 = q.1 := by rw [hc, h]
          rw [hpq]; exact hq1
        simp [hne]
      simp [hz, hc]
    · rw [List.find?_cons_of_neg _ (by simpa using hc), List.countP_cons, ih hnd.2]
      simp [hc]

lemma countP_byName_le_one {β : Type} (c : String) (g : String × β → Bool)
    (tbl : List (String × β)) (hnd : (tbl.map Prod.fst).Nodup) :
    tbl.countP (fun p => p.1 == c && g p) ≤ 1 := by
  have h1 : tbl.countP (fun p => p.1 == c && g p) ≤ tbl.countP (fun p => p.1 == c) :=
    List.countP_mono_left (fun x _ hx => by
      have := Bool.and_elim_left hx
      exact this)
  have h2 : tbl.countP (fun p => p.1 == c) = (tbl.map Prod.fst).count c := by
    rw [List.count, List.countP_map]
    rfl
  have h3 : (tbl.map Prod.fst).count c ≤ 1 := List.nodup_iff_count_le_one.mp hnd c
  omega

lemma find?_byName_self {β : Type} (p : String × β) :
    ∀ tbl : List (String × β), (tbl.map Prod.fst).Nodup → p ∈ tbl →
      tbl.find? (fun q => q.1 == p.1) = some p := by
  intro tbl
  induction tbl with
  | nil => intro _ h; cases h
  | cons q tbl ih =>
    intro hnd hp
    rw [List.map_cons, List.nodup_cons] at hnd
    rcases List.mem_cons.mp hp with h | h
    · subst h; exact List.find?_cons_of_pos _ (by simp)
    · have hne : ¬ (fun r : String × β => r.1 == p.1) q = true := by
        have hmem : p.1 ∈ tbl.map Prod.fst := List.mem_map_of_mem Prod.fst h
        intro hb
        exact hnd.1 (by rw [eq_of_beq hb]; exact hmem)
      have heq := @List.find?_cons_of_neg _ (fun r : String × β => r.1 == p.1) q tbl hne
      rw [heq, ih hnd.2 h]

lemma tallyGet_tableFold {β : Type} (g : String × β → Bool) :
    ∀ (tbl : List (String × β)) (st : List (String × Nat)) (c : String),
      tallyGet (tbl.foldl (fun s p => if g p then bump s p.1 else s) st) c =
        tallyGet st c + tbl.countP (fun p => p.1 == c && g p) := by
  intro tbl
  induction tbl with
  | nil => intro st c; simp
  | cons p tbl ih =>
    intro st c
    rw [List.foldl_cons, List.countP_cons]
    by_cases hg : g p = true
    · rw [if_pos hg, ih, tallyGet_bump]
      by_cases hpc : p.1 = c
      · simp [hpc, hg]
        omega
      · simp [hpc, hg]
    · rw [if_neg hg, ih]
      have : g p = false := by simpa using hg
      simp [this]

/-- The `defaultdict` count of `parse_asciidoc` for a construct name, as a
sum of per-line contributions. -/
lemma tallyGet_parse_asciidoc_aux (c : String) :
    ∀ (lines : List Str) (st : List (String × Nat)),
      tallyGet (lines.foldl lineStep st) c =
        tallyGet st c +
          (lines.map (fun l => ASCIIDOC_CONSTRUCTS.countP (fun p => p.1 == c && p.2 l))).sum := by
  intro lines
  induction lines with
  | nil => intro st; simp
  | cons l lines ih =>
    intro st
    rw [List.foldl_cons, ih, List.map_cons, List.sum_cons]
    have h : tallyGet (lineStep st l) c =
        tallyGet st c + ASCIIDOC_CONSTRUCTS.countP (fun p => p.1 == c && p.2 l) :=
      tallyGet_tableFold (fun p : String × (Str → Bool) => p.2 l) ASCIIDOC_CONSTRUCTS st c
    rw [h]; omega

lemma tallyGet_parse_asciidoc (c : String) (lines : List Str) :
    tallyGet (parse_asciidoc lines) c =
      (lines.map (fun l => ASCIIDOC_CONSTRUCTS.countP (fun p => p.1 == c && p.2 l))).sum := by
  have := tallyGet_parse_asciidoc_aux c lines []
  simpa [parse_asciidoc, tallyGet] using this

/-- The `defaultdict` count of `parse_html` for a construct name, as a sum of
per-tag contributions. -/
lemma tallyGet_parse_html_aux (c : String) :
    ∀ (tags : List HtmlTag) (st : List (String × Nat)),
      tallyGet (tags.foldl tagStep st) c =
        tallyGet st c +
          (tags.map (fun t =>
            HTML_CONSTRUCTS.countP (fun p => p.1 == c && classifyTag p.1 p.2 t))).sum := by
  intro tags
  induction tags with
  | nil => intro st; simp
  | cons t tags ih =>
    intro st
    rw [List.foldl_cons, ih, List.map_cons, List.sum_cons]
    have h : tallyGet (tagStep st t) c =
        tallyGet st c + HTML_CONSTRUCTS.countP (fun p => p.1 == c && classifyTag p.1 p.2 t) :=
      tallyGet_tableFold (fun p => classifyTag p.1 p.2 t) HTML_CONSTRUCTS st c
    rw [h]; omega

lemma tallyGet_parse_html (c : String) (tags : List HtmlTag) :
    tallyGet (parse_html tags) c =
      (tags.map (fun t =>
        HTML_CONSTRUCTS.countP (fun p => p.1 == c && classifyTag p.1 p.2 t))).sum := by
  have := tallyGet_parse_html_aux c tags []
  simpa [parse_html, tallyGet] using this

lemma asciidoc_names_nodup : (ASCIIDOC_CONSTRUCTS.map Prod.fst).Nodup := by decide

lemma html_names_nodup : (HTML_CONSTRUCTS.map Prod.fst).Nodup := by decide

lemma sum_le_length_of_le_one :
    ∀ l : List Nat, (∀ x ∈ l, x ≤ 1) → l.sum ≤ l.length := by
  intro l
  induction l with
  | nil => intro _; simp
  | cons x l ih =>
    intro h
    have hx := h x (List.mem_cons_self x l)
    have hl := ih (fun y hy => h y (List.mem_cons_of_mem x hy))
    simp only [List.sum_cons, List.length_cons]
    omega

/-!
## Lemmas about `output_csv`
-/

lemma tallyGet_eq_zero_of_not_mem (a : List (String × Nat)) (c : String)
    (h : c ∉ a.map Prod.fst) : tallyGet a c = 0 := by
  induction a with
  | nil => rfl
  | cons p a ih =>
    obtain ⟨k, v⟩ := p
    rw [List.map_cons, List.mem_cons] at h
    push_neg at h
    rw [tallyGet_cons, if_neg (by simp only [beq_iff_eq]; exact fun e => h.1 e.symm)]
    exact ih h.2

lemma not_contains_eq_true_iff (l : List String) (c : String) :
    (!(l.contains c)) = true ↔ c ∉ l := by
  show (!(l.elem c)) = true ↔ c ∉ l
  rw [List.elem_eq_mem, Bool.not_eq_true', decide_eq_false_iff_not]

lemma mem_unionKeys (a h : List (String × Nat)) (c : String) :
    c ∈ unionKeys a h ↔ c ∈ a.map Prod.fst ∨ c ∈ h.map Prod.fst := by
  unfold unionKeys
  rw [List.mem_append, List.mem_filter]
  constructor
  · rintro (h1 | ⟨h2, _⟩)
    · exact Or.inl h1
    · exact Or.inr h2
  · rintro (h1 | h2)
    · exact Or.inl h1
    · by_cases hc : c ∈ a.map Prod.fst
      · exact Or.inl hc
      · exact Or.inr ⟨h2, (not_contains_eq_true_iff _ c).mpr hc⟩

lemma nodup_unionKeys (a h : List (String × Nat))
    (ha : (a.map Prod.fst).Nodup) (hh : (h.map Prod.fst).Nodup) :
    (unionKeys a h).Nodup := by
  unfold unionKeys
  refine List.Nodup.append ha (List.Nodup.filter _ hh) ?_
  intro x hx hx2
  rw [List.mem_filter] at hx2
  exact ((not_contains_eq_true_iff _ x).mp hx2.2) hx

lemma countP_beq_of_nodup (l : List String) (hnd : l.Nodup) (c : String) :
    l.countP (fun k => k == c) = if c ∈ l then 1 else 0 := by
  have he : l.countP (fun k => k == c) = l.count c := rfl
  rw [he]
  by_cases hc : c ∈ l
  · rw [if_pos hc]
    exact List.count_eq_one_of_mem hnd hc
  · rw [if_neg hc]
    exact List.count_eq_zero.mpr hc

/-!
## Claims about `stats.py`
-/

/-- C9: in `parse_asciidoc`, each construct's counter is incremented at most
once per line (the `re.search` test is a presence test), so every construct's
source-side count is bounded by the number of lines of the document. -/
theorem census_count_le_lines :
    (∀ (st : List (String × Nat)) (l : Str) (c : String),
        tallyGet (lineStep st l) c ≤ tallyGet st c + 1) ∧
    (∀ (lines : List Str) (c : String),
        tallyGet (parse_asciidoc lines) c ≤ lines.length) := by
  constructor
  · intro st l c
    have h : tallyGet (lineStep st l) c =
        tallyGet st c + ASCIIDOC_CONSTRUCTS.countP (fun p => p.1 == c && p.2 l) :=
      tallyGet_tableFold (fun p : String × (Str → Bool) => p.2 l) ASCIIDOC_CONSTRUCTS st c
    have hb : ASCIIDOC_CONSTRUCTS.countP (fun p => p.1 == c && p.2 l) ≤ 1 :=
      countP_byName_le_one c (fun p : String × (Str → Bool) => p.2 l)
        ASCIIDOC_CONSTRUCTS asciidoc_names_nodup
    omega
  · intro lines c
    rw [tallyGet_parse_asciidoc]
    have hle : ∀ x ∈ lines.map (fun l => ASCIIDOC_CONSTRUCTS.countP (fun p => p.1 == c && p.2 l)),
        x ≤ 1 := by
      intro x hx
      rcases List.mem_map.mp hx with ⟨l, _, rfl⟩
      exact countP_byName_le_one c _ ASCIIDOC_CONSTRUCTS asciidoc_names_nodup
    have hs := sum_le_length_of_le_one _ hle
    simpa using hs

/-- C10: `inline_monospace` and `inline_code` carry identical patterns in both
construct tables, so their counts agree in every source-side tally and in
every rendered-side tally. -/
theorem monospace_code_counts_equal :
    (∀ lines : List Str,
        tallyGet (parse_asciidoc lines) "inline_monospace" =
          tallyGet (parse_asciidoc lines) "inline_code") ∧
    (∀ tags : List HtmlTag,
        tallyGet (parse_html tags) "inline_monospace" =
          tallyGet (parse_html tags) "inline_code") := by
  constructor
  · intro lines
    rw [tallyGet_parse_asciidoc "inline_monospace" lines,
      tallyGet_parse_asciidoc "inline_code" lines]
    congr 1
  · intro tags
    rw [tallyGet_parse_html "inline_monospace" tags,
      tallyGet_parse_html "inline_code" tags]
    congr 1

/-- C4: `parse_asciidoc` tests every pattern against every line independently
with no early exit — any table entry whose pattern matches a line has its
counter incremented by that line — and on the one-line document `== Title`
the `headings` count is 1 while every `inline_*` construct count is 0. -/
theorem census_nonexclusive_heading :
    (∀ (st : List (String × Nat)) (l : Str) (p : String × (Str → Bool)),
        p ∈ ASCIIDOC_CONSTRUCTS → p.2 l = true →
        tallyGet (lineStep st l) p.1 = tallyGet st p.1 + 1) ∧
    parse_asciidoc ["== Title".toList] = [("headings", 1)] ∧
    (∀ name ∈ (ASCIIDOC_CONSTRUCTS.map Prod.fst).filter
        (fun n => "inline_".toList.isPrefixOf n.toList),
        tallyGet (parse_asciidoc ["== Title".toList]) name = 0) := by
  refine ⟨?_, by decide, by decide⟩
  intro st l p hp hl
  have h : tallyGet (lineStep st l) p.1 =
      tallyGet st p.1 + ASCIIDOC_CONSTRUCTS.countP (fun q => q.1 == p.1 && q.2 l) :=
    tallyGet_tableFold (fun q : String × (Str → Bool) => q.2 l) ASCIIDOC_CONSTRUCTS st p.1
  have hcp : ASCIIDOC_CONSTRUCTS.countP (fun q => q.1 == p.1 && q.2 l) = 1 := by
    rw [countP_byName _ _ _ asciidoc_names_nodup,
      find?_byName_self p ASCIIDOC_CONSTRUCTS asciidoc_names_nodup hp]
    simp [hl]
  omega

/-- Witness for C4: the `headings` entry fires on `== Title` and its counter
is incremented by exactly one. -/
theorem census_nonexclusive_heading_witness :
    (("headings", matchHeadings) ∈ ASCIIDOC_CONSTRUCTS ∧
      matchHeadings ("== Title".toList) = true) ∧
    tallyGet (lineStep [] ("== Title".toList)) "headings" =
      tallyGet [] "headings" + 1 := by
  have hmem : ("headings", matchHeadings) ∈ ASCIIDOC_CONSTRUCTS := by
    unfold ASCIIDOC_CONSTRUCTS
    exact List.mem_cons_self _ _
  exact ⟨⟨hmem, by decide⟩,
    census_nonexclusive_heading.1 [] ("== Title".toList) ("headings", matchHeadings)
      hmem (by decide)⟩

/-- C3 (behaviour of the code at the failing input): a bare `a` tag with no
`href` attribute still increments `inline_link`, because the unanchored
pattern `a` already matches the tag name `a` under `re.match` and the
`elif`-branch testing `tag.get('href')` is therefore unreachable. -/
theorem inlineLink_bareAnchor_eval :
    parse_html [⟨"a".toList, [], none⟩] = [("inline_link", 1)] ∧
    hrefTruthy (HtmlTag.mk "a".toList [] none).href = false := by decide

/-- C5: `output_csv` emits exactly one data row per construct name in the
union of the two tallies' key sets, reports 0 (via `dict.get(c, 0)`) for a
construct missing from one side, and emits no row for a construct absent
from both. -/
theorem outputCsv_union_rows (a h : List (String × Nat))
    (ha : (a.map Prod.fst).Nodup) (hh : (h.map Prod.fst).Nodup) :
    (∀ c : String,
        (output_csv a h).countP (fun r => r.adoc_construct == c) =
          if c ∈ a.map Prod.fst ∨ c ∈ h.map Prod.fst then 1 else 0) ∧
    (∀ r ∈ output_csv a h,
        r.html_construct = dictGetD HTML_CONSTRUCTS r.adoc_construct "N/A" ∧
        r.adoc_count = tallyGet a r.adoc_construct ∧
        r.html_count = tallyGet h r.adoc_construct ∧
        (r.adoc_construct ∉ a.map Prod.fst → r.adoc_count = 0) ∧
        (r.adoc_construct ∉ h.map Prod.fst → r.html_count = 0)) := by
  constructor
  · intro c
    unfold output_csv
    rw [List.countP_map]
    have hcomp : ((fun r : CsvRow => r.adoc_construct == c) ∘
        (fun k => CsvRow.mk k (dictGetD HTML_CONSTRUCTS k "N/A") (tallyGet a k) (tallyGet h k))) =
        fun k => k == c := rfl
    rw [hcomp, countP_beq_of_nodup _ (nodup_unionKeys a h ha hh) c]
    by_cases hc : c ∈ a.map Prod.fst ∨ c ∈ h.map Prod.fst
    · rw [if_pos ((mem_unionKeys a h c).mpr hc), if_pos hc]
    · rw [if_neg (fun hm => hc ((mem_unionKeys a h c).mp hm)), if_neg hc]
  · intro r hr
    unfold output_csv at hr
    rcases List.mem_map.mp hr with ⟨k, hk, rfl⟩
    exact ⟨rfl, rfl, rfl,
      fun hna => tallyGet_eq_zero_of_not_mem a k hna,
      fun hnh => tallyGet_eq_zero_of_not_mem h k hnh⟩

/-!
## Lemmas about `analyze_file`
-/

lemma insertDef_length (defs : List (Str × Str)) (d : Str × Str) :
    (insertDef defs d).length = defs.length ∨
      (insertDef defs d).length = defs.length + 1 := by
  unfold insertDef
  split
  · exact Or.inl rfl
  · right; simp

lemma defnUpdate_length (defs : List (Str × Str)) (raw : Str) :
    (defnUpdate defs raw).length = defs.length ∨
      (defnUpdate defs raw).length = defs.length + 1 := by
  unfold defnUpdate
  cases hd : pyLstrip raw with
  | nil => exact Or.inl rfl
  | cons c cs =>
    by_cases hc : (c == ':') = true
    · simp only [if_pos hc]
      cases hp : parseDefPair cs with
      | none => exact Or.inl rfl
      | some d => exact insertDef_length defs d
    · simp only [if_neg hc]
      left
      trivial

/-- Per-line case analysis: a raw line falls in exactly one of the five
categories, and `analyzeLine` performs exactly the corresponding update. -/
lemma analyzeLine_cases (st : AnalyzeState) (raw : Str) :
    (lineCat raw = .blank ∧ analyzeLine st raw =
        ⟨st.total + 1, st.alnum, st.special, st.comments, st.definitions⟩) ∨
    (lineCat raw = .comment ∧ analyzeLine st raw =
        ⟨st.total + 1, st.alnum, st.special, st.comments + 1, st.definitions⟩) ∨
    (lineCat raw = .defn ∧ analyzeLine st raw =
        ⟨st.total + 1, st.alnum, st.special, st.comments, defnUpdate st.definitions raw⟩) ∨
    (lineCat raw = .alnum ∧ analyzeLine st raw =
        ⟨st.total + 1, st.alnum + 1, st.special, st.comments, st.definitions⟩) ∨
    (lineCat raw = .special ∧ analyzeLine st raw =
        ⟨st.total + 1, st.alnum, st.special + 1, st.comments, st.definitions⟩) := by
  unfold analyzeLine lineCat defnUpdate
  cases hd : pyLstrip raw with
  | nil => exact Or.inl ⟨rfl, rfl⟩
  | cons c cs =>
    by_cases h1 : (c == '/' && cs.head? == some '/') = true
    · simp only [if_pos h1]
      refine Or.inr (Or.inl ⟨?_, ?_⟩) <;> trivial
    · simp only [if_neg h1]
      by_cases h2 : (c == ':') = true
      · simp only [if_pos h2]
        cases hp : parseDefPair cs with
        | some d => refine Or.inr (Or.inr (Or.inl ⟨?_, ?_⟩)) <;> trivial
        | none => refine Or.inr (Or.inr (Or.inl ⟨?_, ?_⟩)) <;> trivial
      · simp only [if_neg h2]
        by_cases h3 : pyIsAlnum c = true
        · simp only [if_pos h3]
          refine Or.inr (Or.inr (Or.inr (Or.inl ⟨?_, ?_⟩))) <;> trivial
        · simp only [if_neg h3]
          refine Or.inr (Or.inr (Or.inr (Or.inr ⟨?_, ?_⟩))) <;> trivial

lemma catCount_cons (cat : LineCat) (raw : Str) (lines : List Str) :
    catCount cat (raw :: lines) =
      catCount cat lines + (if lineCat raw == cat then 1 else 0) := by
  unfold catCount
  rw [List.countP_cons]

/-- Accumulated form of the read loop: `total` counts all physical lines,
each of `alnum`/`special`/`comments` counts its category, and the
`definitions` set grows by at most one element per definition line. -/
lemma analyze_fold (lines : List Str) :
    ∀ st : AnalyzeState,
      (lines.foldl analyzeLine st).total = st.total + lines.length ∧
      (lines.foldl analyzeLine st).alnum = st.alnum + catCount .alnum lines ∧
      (lines.foldl analyzeLine st).special = st.special + catCount .special lines ∧
      (lines.foldl analyzeLine st).comments = st.comments + catCount .comment lines ∧
      (lines.foldl analyzeLine st).definitions.length ≤
        st.definitions.length + catCount .defn lines := by
  induction lines with
  | nil =>
    intro st
    simp [catCount]
  | cons raw lines ih =>
    intro st
    rw [List.foldl_cons, List.length_cons, catCount_cons, catCount_cons, catCount_cons,
      catCount_cons]
    have hi := ih (analyzeLine st raw)
    have hdl := defnUpdate_length st.definitions raw
    rcases analyzeLine_cases st raw with ⟨hc, he⟩ | ⟨hc, he⟩ | ⟨hc, he⟩ | ⟨hc, he⟩ | ⟨hc, he⟩ <;>
      rw [he] at hi ⊢ <;>
      simp only [hc] at hi ⊢ <;>
      simp at hi ⊢ <;>
      refine ⟨by omega, by omega, by omega, by omega, by omega⟩

/-- Every line falls in exactly one category, so the five counts partition
the physical line count. -/
lemma catCount_partition (lines : List Str) :
    catCount .blank lines + catCount .comment lines + catCount .defn lines +
      catCount .alnum lines + catCount .special lines = lines.length := by
  induction lines with
  | nil => rfl
  | cons raw lines ih =>
    rw [List.length_cons, catCount_cons, catCount_cons, catCount_cons, catCount_cons,
      catCount_cons]
    cases hc : lineCat raw <;> simp [hc] <;> omega

/-!
## Lemmas about `write_to_db`

`INSERT OR REPLACE` (delete the keyed row, append the new one) and
`INSERT OR IGNORE` folds are characterized and shown idempotent.
-/

lemma foldl_upsertFile_eq (rows : List FileRow) :
    ∀ tbl : List FileRow,
      rows.foldl upsertFile tbl =
        tbl.filter (fun q => !((rows.map FileRow.path).contains q.path)) ++
          rows.foldl upsertFile [] := by
  induction rows with
  | nil =>
    intro tbl
    simp
  | cons r rows ih =>
    intro tbl
    rw [List.foldl_cons, List.foldl_cons, ih (upsertFile tbl r), ih (upsertFile [] r)]
    unfold upsertFile
    rw [List.filter_append, List.filter_filter, List.append_assoc]
    congr 1
    apply List.filter_congr
    intro q _
    simp only [List.map_cons, List.contains_cons]
    cases hq : (q.path == r.path) <;> simp [hq]

lemma mem_foldl_upsertFile (rows : List FileRow) :
    ∀ (tbl : List FileRow) (q : FileRow),
      q ∈ rows.foldl upsertFile tbl → q ∈ tbl ∨ q ∈ rows := by
  induction rows with
  | nil => intro tbl q h; exact Or.inl h
  | cons r rows ih =>
    intro tbl q h
    rw [List.foldl_cons] at h
    rcases ih _ q h with h1 | h1
    · unfold upsertFile at h1
      rcases List.mem_append.mp h1 with h2 | h2
      · exact Or.inl (List.mem_of_mem_filter h2)
      · rw [List.mem_singleton.mp h2]
        exact Or.inr (List.mem_cons_self _ _)
    · exact Or.inr (List.mem_cons_of_mem _ h1)

lemma foldl_upsertFile_idem (rows : List FileRow) (tbl : List FileRow) :
    rows.foldl upsertFile (rows.foldl upsertFile tbl) = rows.foldl upsertFile tbl := by
  have hN := foldl_upsertFile_eq rows
  rw [hN (rows.foldl upsertFile tbl), hN tbl]
  rw [List.filter_append, List.filter_filter]
  have hcore : (rows.foldl upsertFile []).filter
      (fun q => !((rows.map FileRow.path).contains q.path)) = [] := by
    refine List.filter_eq_nil_iff.mpr ?_
    intro q hq
    rcases mem_foldl_upsertFile rows [] q hq with h | h
    · cases h
    · have hmem : q.path ∈ rows.map FileRow.path := List.mem_map_of_mem _ h
      simp [List.contains, List.elem_eq_mem, hmem]
  rw [hcore]
  simp

lemma mem_foldl_insertIgnore_of_mem {α : Type} [BEq α] [LawfulBEq α] (xs : List α) :
    ∀ (tbl : List α) (x : α), x ∈ tbl → x ∈ xs.foldl insertIgnore tbl := by
  induction xs with
  | nil => intro tbl x h; exact h
  | cons y xs ih =>
    intro tbl x h
    rw [List.foldl_cons]
    refine ih _ x ?_
    unfold insertIgnore
    split
    · exact h
    · exact List.mem_append_left _ h

lemma mem_foldl_insertIgnore_self {α : Type} [BEq α] [LawfulBEq α] (xs : List α) :
    ∀ (tbl : List α) (x : α), x ∈ xs → x ∈ xs.foldl insertIgnore tbl := by
  induction xs with
  | nil => intro tbl x h; cases h
  | cons y xs ih =>
    intro tbl x h
    rw [List.foldl_cons]
    rcases List.mem_cons.mp h with rfl | h
    · refine mem_foldl_insertIgnore_of_mem xs _ x ?_
      unfold insertIgnore
      by_cases hc : tbl.contains x = true
      · rw [if_pos hc]
        exact List.elem_iff.mp hc
      · rw [if_neg hc]
        exact List.mem_append_right _ (List.mem_singleton_self x)
    · exact ih _ x h

lemma foldl_insertIgnore_eq_self {α : Type} [BEq α] [LawfulBEq α] (xs : List α) :
    ∀ tbl : List α, (∀ x ∈ xs, x ∈ tbl) → xs.foldl insertIgnore tbl = tbl := by
  induction xs with
  | nil => intro tbl _; rfl
  | cons y xs ih =>
    intro tbl h
    rw [List.foldl_cons]
    have hy : insertIgnore tbl y = tbl := by
      unfold insertIgnore
      rw [if_pos (List.elem_iff.mpr (h y (List.mem_cons_self _ _)))]
    rw [hy]
    exact ih tbl (fun x hx => h x (List.mem_cons_of_mem _ hx))

lemma foldl_insertIgnore_idem {α : Type} [BEq α] [LawfulBEq α] (xs tbl : List α) :
    xs.foldl insertIgnore (xs.foldl insertIgnore tbl) = xs.foldl insertIgnore tbl :=
  foldl_insertIgnore_eq_self xs _ (fun x hx => mem_foldl_insertIgnore_self xs tbl x hx)

lemma foldl_defInsert_eq (p : Str) (defs : List (Str × Str)) :
    ∀ d : DB,
      defs.foldl (defInsert p) d =
        ⟨d.files,
         (defs.map Prod.fst).foldl insertIgnore d.attributes,
         (defs.map Prod.snd).foldl insertIgnore d.values_tbl,
         (defs.map (fun av => (p, av.1))).foldl insertIgnore d.file_attributes,
         defs.foldl insertIgnore d.attribute_values⟩ := by
  induction defs with
  | nil => intro d; rfl
  | cons av defs ih =>
    intro d
    rw [List.foldl_cons, ih (defInsert p d av)]
    rfl

lemma writeRecord_eq (db : DB) (r : Record) :
    writeRecord db r =
      ⟨upsertFile db.files r.toRow,
       (r.definitions_list.map Prod.fst).foldl insertIgnore db.attributes,
       (r.definitions_list.map Prod.snd).foldl insertIgnore db.values_tbl,
       (r.definitions_list.map (fun av => (r.path, av.1))).foldl insertIgnore
         db.file_attributes,
       r.definitions_list.foldl insertIgnore db.attribute_values⟩ := by
  unfold writeRecord
  rw [foldl_defInsert_eq]

/-- The whole batch write, table by table: the `files` table sees the
sequence of row upserts; each keyed table sees the concatenated stream of
`INSERT OR IGNORE` rows. -/
lemma write_to_db_eq (records : List Record) :
    ∀ db : DB,
      write_to_db db records =
        ⟨(records.map Record.toRow).foldl upsertFile db.files,
         (streamConcat (fun r => r.definitions_list.map Prod.fst) records).foldl
           insertIgnore db.attributes,
         (streamConcat (fun r => r.definitions_list.map Prod.snd) records).foldl
           insertIgnore db.values_tbl,
         (streamConcat (fun r => r.definitions_list.map (fun av => (r.path, av.1)))
           records).foldl insertIgnore db.file_attributes,
         (streamConcat (fun r => r.definitions_list) records).foldl insertIgnore
           db.attribute_values⟩ := by
  induction records with
  | nil => intro db; rfl
  | cons r records ih =>
    intro db
    show write_to_db (writeRecord db r) records = _
    rw [ih (writeRecord db r), writeRecord_eq]
    simp [streamConcat, List.foldl_append]

/-!
## Claims about `parse_adoc.py`
-/

/-- C1 (counterexample): for the one-line file `:` — a definition line whose
attribute is empty — the record has `total_lines = 1` while
`alnum_start + special_start + comment_lines + definition_count` and the
blank-line count are all `0`, so the claimed equation fails, and the claimed
"equality exactly when no blank lines" fails as well (there is no blank
line). -/
theorem totalInvariant_counterexample :
    ¬ ((analyze_lines [":".toList]).total =
        (analyze_lines [":".toList]).alnum + (analyze_lines [":".toList]).special +
        (analyze_lines [":".toList]).comments +
        (analyze_lines [":".toList]).definitions.length +
        catCount .blank [":".toList]) ∧
    ¬ (((analyze_lines [":".toList]).alnum + (analyze_lines [":".toList]).special +
        (analyze_lines [":".toList]).comments +
        (analyze_lines [":".toList]).definitions.length =
        (analyze_lines [":".toList]).total) ↔
      catCount .blank [":".toList] = 0) := by decide

/-- C1 (amended): `total_lines` is the physical line count and equals
`alnum_start + special_start + comment_lines` plus the number of
definition-classified lines plus the number of blank lines;
`definition_count` (the number of distinct parsed pairs) is bounded by the
number of definition-classified lines, hence
`alnum_start + special_start + comment_lines + definition_count ≤ total_lines`
— but equality can fail even without blank lines, because definition lines
with an empty attribute or a repeated pair do not grow the set. -/
theorem totalInvariant_amended (m : FileMeta) (lines : List Str) :
    analyze_file (.ok m lines) = some (recordOf m (analyze_lines lines)) ∧
    (analyze_lines lines).total = lines.length ∧
    (analyze_lines lines).total =
      (analyze_lines lines).alnum + (analyze_lines lines).special +
      (analyze_lines lines).comments + catCount .defn lines + catCount .blank lines ∧
    (analyze_lines lines).definitions.length ≤ catCount .defn lines ∧
    (analyze_lines lines).alnum + (analyze_lines lines).special +
      (analyze_lines lines).comments + (analyze_lines lines).definitions.length ≤
      (analyze_lines lines).total := by
  have h := analyze_fold lines ⟨0, 0, 0, 0, []⟩
  simp at h
  have hp := catCount_partition lines
  unfold analyze_lines
  refine ⟨rfl, by omega, by omega, by simpa using h.2.2.2.2, by omega⟩

/-- C2 (counterexample): the file consisting of the same definition line
`:a: b` twice — the second occurrence is a non-blank line after which none of
the four buckets (`comment_lines`, the definitions set, `alnum_start`,
`special_start`) has changed, so it is not the case that exactly one of them
is incremented by every non-blank line. -/
theorem exclusiveClassification_counterexample :
    lineCat (":a: b".toList) ≠ LineCat.blank ∧
    (analyzeLine (analyze_lines [":a: b".toList]) (":a: b".toList)).comments =
      (analyze_lines [":a: b".toList]).comments ∧
    (analyzeLine (analyze_lines [":a: b".toList]) (":a: b".toList)).alnum =
      (analyze_lines [":a: b".toList]).alnum ∧
    (analyzeLine (analyze_lines [":a: b".toList]) (":a: b".toList)).special =
      (analyze_lines [":a: b".toList]).special ∧
    (analyzeLine (analyze_lines [":a: b".toList]) (":a: b".toList)).definitions =
      (analyze_lines [":a: b".toList]).definitions := by decide

/-- C2 (amended): every non-blank line is routed to exactly one of the four
classification branches — comment, definition, alnum-start, special-start.
The comment, alnum and special branches increment exactly their own counter
by one and leave everything else unchanged; the definition branch leaves the
three counters unchanged and updates the definitions set, growing it by one
exactly when the line parses to a fresh pair with a non-empty attribute and
by zero otherwise. -/
theorem exclusiveClassification_amended (st : AnalyzeState) (raw : Str)
    (h : lineCat raw ≠ LineCat.blank) :
    (lineCat raw = .comment ∧ analyzeLine st raw =
        ⟨st.total + 1, st.alnum, st.special, st.comments + 1, st.definitions⟩) ∨
    (lineCat raw = .defn ∧ analyzeLine st raw =
        ⟨st.total + 1, st.alnum, st.special, st.comments, defnUpdate st.definitions raw⟩ ∧
      ((defnUpdate st.definitions raw).length = st.definitions.length ∨
        (defnUpdate st.definitions raw).length = st.definitions.length + 1)) ∨
    (lineCat raw = .alnum ∧ analyzeLine st raw =
        ⟨st.total + 1, st.alnum + 1, st.special, st.comments, st.definitions⟩) ∨
    (lineCat raw = .special ∧ analyzeLine st raw =
        ⟨st.total + 1, st.alnum, st.special + 1, st.comments, st.definitions⟩) := by
  rcases analyzeLine_cases st raw with ⟨hc, _⟩ | ⟨hc, he⟩ | ⟨hc, he⟩ | ⟨hc, he⟩ | ⟨hc, he⟩
  · exact absurd hc h
  · exact Or.inl ⟨hc, he⟩
  · exact Or.inr (Or.inl ⟨hc, he, defnUpdate_length st.definitions raw⟩)
  · exact Or.inr (Or.inr (Or.inl ⟨hc, he⟩))
  · exact Or.inr (Or.inr (Or.inr ⟨hc, he⟩))

/-- Witness for the amended C2: the alnum line `x1` from the empty initial
state. -/
theorem exclusiveClassification_amended_witness :
    lineCat ("x1".toList) ≠ LineCat.blank ∧
    ((lineCat ("x1".toList) = .comment ∧
        analyzeLine ⟨0, 0, 0, 0, []⟩ ("x1".toList) = ⟨1, 0, 0, 1, []⟩) ∨
     (lineCat ("x1".toList) = .defn ∧
        analyzeLine ⟨0, 0, 0, 0, []⟩ ("x1".toList) =
          ⟨1, 0, 0, 0, defnUpdate [] ("x1".toList)⟩ ∧
        ((defnUpdate ([] : List (Str × Str)) ("x1".toList)).length = 0 ∨
          (defnUpdate ([] : List (Str × Str)) ("x1".toList)).length = 0 + 1)) ∨
     (lineCat ("x1".toList) = .alnum ∧
        analyzeLine ⟨0, 0, 0, 0, []⟩ ("x1".toList) = ⟨1, 1, 0, 0, []⟩) ∨
     (lineCat ("x1".toList) = .special ∧
        analyzeLine ⟨0, 0, 0, 0, []⟩ ("x1".toList) = ⟨1, 0, 1, 0, []⟩)) :=
  ⟨by decide, exclusiveClassification_amended ⟨0, 0, 0, 0, []⟩ ("x1".toList) (by decide)⟩

/-- C6: definition-line parsing — `:foo: bar` yields the pair
`("foo", "bar")`, `:flagonly:` yields `("flagonly", "")`, and `:` alone
contributes no pair (its `definition_count` is 0). -/
theorem definitionLine_parsing :
    (analyze_lines [":foo: bar".toList]).definitions =
      [("foo".toList, "bar".toList)] ∧
    (analyze_lines [":flagonly:".toList]).definitions =
      [("flagonly".toList, "".toList)] ∧
    (analyze_lines [":".toList]).definitions = [] ∧
    (analyze_lines [":".toList]).definitions.length = 0 := by decide

/-- C7: writing the same batch of records twice is idempotent — after the
second write every table of the database is exactly what it was after the
first write: the `files` upserts replace rows with identical values, and the
`INSERT OR IGNORE` tables gain no rows at all. -/
theorem write_to_db_idempotent (db : DB) (records : List Record) :
    write_to_db (write_to_db db records) records = write_to_db db records := by
  simp only [write_to_db_eq records]
  simp only [foldl_upsertFile_idem, foldl_insertIgnore_idem]

/-- C8: a file failing at `stat` or at read yields no record from
`analyze_file`; `process_files` omits it, so the batch equals the batch
without it — it contributes no database rows, is excluded from the processed
count, and the records of the other files are unchanged. -/
theorem unreadable_file_excluded (xs ys : List FileInput) (bad : FileInput) (db : DB)
    (hbad : (∃ p, bad = .statError p) ∨ (∃ m, bad = .readError m)) :
    analyze_file bad = none ∧
    process_files (xs ++ bad :: ys) = process_files xs ++ process_files ys ∧
    process_files (xs ++ bad :: ys) = process_files (xs ++ ys) ∧
    (process_files (xs ++ bad :: ys)).length = (process_files (xs ++ ys)).length ∧
    write_to_db db (process_files (xs ++ bad :: ys)) =
      write_to_db db (process_files (xs ++ ys)) := by
  have hnone : analyze_file bad = none := by
    rcases hbad with ⟨p, rfl⟩ | ⟨m, rfl⟩ <;> rfl
  have h1 : process_files (xs ++ bad :: ys) = process_files xs ++ process_files ys := by
    unfold process_files
    rw [List.filterMap_append]
    congr 1
    exact List.filterMap_cons_none hnone
  have h2 : process_files (xs ++ ys) = process_files xs ++ process_files ys := by
    unfold process_files
    rw [List.filterMap_append]
  have h12 : process_files (xs ++ bad :: ys) = process_files (xs ++ ys) := h1.trans h2.symm
  exact ⟨hnone, h1, h12, by rw [h12], by rw [h12]⟩

/-- Witness for C8: a concrete batch of one readable file, one stat-failing
file and one read-failing file. -/
theorem unreadable_file_excluded_witness :
    ((∃ p, FileInput.statError ("gone.adoc".toList) = FileInput.statError p) ∨
      (∃ m, FileInput.statError ("gone.adoc".toList) = FileInput.readError m)) ∧
    (analyze_file (FileInput.statError ("gone.adoc".toList)) = none ∧
     process_files ([FileInput.ok ⟨"a".toList, "a".toList, [], [], 3⟩ ["x".toList]] ++
         FileInput.statError ("gone.adoc".toList) :: []) =
       process_files [FileInput.ok ⟨"a".toList, "a".toList, [], [], 3⟩ ["x".toList]] ++
         process_files [] ∧
     process_files ([FileInput.ok ⟨"a".toList, "a".toList, [], [], 3⟩ ["x".toList]] ++
         FileInput.statError ("gone.adoc".toList) :: []) =
       process_files ([FileInput.ok ⟨"a".toList, "a".toList, [], [], 3⟩ ["x".toList]] ++ []) ∧
     (process_files ([FileInput.ok ⟨"a".toList, "a".toList, [], [], 3⟩ ["x".toList]] ++
         FileInput.statError ("gone.adoc".toList) :: [])).length =
       (process_files ([FileInput.ok ⟨"a".toList, "a".toList, [], [], 3⟩ ["x".toList]] ++
         [])).length ∧
     write_to_db ⟨[], [], [], [], []⟩
         (process_files ([FileInput.ok ⟨"a".toList, "a".toList, [], [], 3⟩ ["x".toList]] ++
           FileInput.statError ("gone.adoc".toList) :: [])) =
       write_to_db ⟨[], [], [], [], []⟩
         (process_files ([FileInput.ok ⟨"a".toList, "a".toList, [], [], 3⟩ ["x".toList]] ++
           []))) :=
  ⟨Or.inl ⟨"gone.adoc".toList, rfl⟩,
    unreadable_file_excluded
      [FileInput.ok ⟨"a".toList, "a".toList, [], [], 3⟩ ["x".toList]] []
      (FileInput.statError ("gone.adoc".toList)) ⟨[], [], [], [], []⟩
      (Or.inl ⟨"gone.adoc".toList, rfl⟩)⟩

/-- Witness for C5: two concrete one-key tallies with distinct keys; the
union has a row for each key and none for an absent construct. -/
theorem outputCsv_union_rows_witness :
    ((([("headings", 3)] : List (String × Nat)).map Prod.fst).Nodup ∧
      (([("inline_bold", 2)] : List (String × Nat)).map Prod.fst).Nodup) ∧
    (output_csv [("headings", 3)] [("inline_bold", 2)]).countP
        (fun r => r.adoc_construct == "checklist") =
      (if "checklist" ∈ ([("headings", 3)] : List (String × Nat)).map Prod.fst ∨
          "checklist" ∈ ([("inline_bold", 2)] : List (String × Nat)).map Prod.fst
       then 1 else 0) :=
  ⟨⟨by decide, by decide⟩,
    (outputCsv_union_rows [("headings", 3)] [("inline_bold", 2)]
      (by decide) (by decide)).1 "checklist"⟩

end Docs
